import Mathlib

/-!
Verification development for the osd-optimizer bundle cache core of
OpenSearch Dashboards: the `Bundle` entity of `bundle.ts`
(`createCacheKey`, `toSpec`, `readBundleDeps`, `parseBundles`), the
module classification and cache-record persistence of the terminal
success pass in `worker/run_compilers.ts` (`observeCompiler`), and the
bundle cache decision engine exercised by
`integration_tests/bundle_cache.test.ts`.
-/

/-- JSON value as produced by `JSON.parse`: null, booleans, numbers
(modelled as integers, the only numbers relevant to bundle specs and
manifests), strings, arrays, and objects modelled as their ordered
field lists. -/
inductive JValue where
  | null
  | bool (b : Bool)
  | num (n : Int)
  | str (s : String)
  | arr (items : List JValue)
  | obj (fields : List (String × JValue))

/-- JavaScript truthiness of a JSON value: `null`, `false`, `0` and the
empty string are falsy; arrays and objects are always truthy. -/
def jsTruthy : JValue → Bool
  | .null => false
  | .bool b => b
  | .num n => n != 0
  | .str s => s != ""
  | .arr _ => true
  | .obj _ => true

/-- True exactly when `typeof v === 'object'` holds and `v` is truthy,
the guard used on a parsed manifest: objects and arrays qualify, `null`
is typeof object but falsy, primitives are excluded. -/
def jsObjectLike : JValue → Bool
  | .obj _ => true
  | .arr _ => true
  | _ => false

/-- Field lookup in a JSON object field list (first match; `JSON.parse`
output has unique keys). -/
def lookupField (k : String) : List (String × JValue) → Option JValue
  | [] => none
  | (k', v) :: rest => if k' = k then some v else lookupField k rest

/-- JavaScript property access `v[k]` on a parsed JSON value: field
lookup on objects, and `undefined` (`none`) on every other value, since
a named property read on an array or primitive parsed from JSON yields
`undefined`. -/
def getProp : JValue → String → Option JValue
  | .obj fields, k => lookupField k fields
  | _, _ => none

/-- The `isStringArray` predicate of `bundle.ts`: an array value whose
every element is a string. -/
def isStringArray : JValue → Bool
  | .arr items => items.all fun v => match v with | .str _ => true | _ => false
  | _ => false

/-- JavaScript `x || d` applied to a possibly-undefined property value:
the value itself when present and truthy, otherwise the default. -/
def jsOrDefault (v : Option JValue) (d : JValue) : JValue :=
  match v with
  | some x => if jsTruthy x then x else d
  | none => d

/-- JavaScript iterable spread `[...v]` of a JSON value: arrays spread
to their elements, strings to their characters (as one-character
strings), and any other value is not iterable, so spreading it throws a
`TypeError` (`none`). -/
def jsSpreadElems : JValue → Option (List JValue)
  | .arr items => some items
  | .str s => some (s.data.map fun c => .str (String.mk [c]))
  | _ => none

/-- The string carried by a JSON string value (callers guard with
`isStringArray`). -/
def strVal : JValue → String
  | .str s => s
  | _ => ""

/-- Extract the strings of a JSON array known to pass `isStringArray`,
giving the `string[]` the TypeScript code works with. -/
def strListOf (items : List JValue) : List String :=
  items.map strVal

/-- Executable model of `String.startsWith` by character lists. -/
def strStartsWith (s p : String) : Bool :=
  p.data.isPrefixOf s.data

/-- Executable model of `String.endsWith` by character lists. -/
def strEndsWith (s p : String) : Bool :=
  p.data.isSuffixOf s.data

/-- Modelled from the spec: Node `Path.isAbsolute` for posix paths, the
absolute-path validation used by `parseBundles` (the `Path` platform
module is not under src/). -/
def isAbsolutePath (p : String) : Bool :=
  strStartsWith p "/"

/-- JavaScript `String.split` with a one-character separator, on
character lists. -/
def splitChar (sep : Char) : List Char → List (List Char)
  | [] => [[]]
  | c :: rest =>
    match splitChar sep rest with
    | [] => if c = sep then [[], []] else [[c]]
    | h :: t => if c = sep then [] :: h :: t else (c :: h) :: t

/-- Join path segments with slashes. -/
def joinSlash : List String → String
  | [] => ""
  | [s] => s
  | s :: rest => s ++ "/" ++ joinSlash rest

/-- Modelled from the spec: Node `Path.join` for a posix root and path
segments (the `Path` platform module is not under src/). -/
def pathJoin (root : String) (segs : List String) : String :=
  if root = "/" then "/" ++ joinSlash segs else joinSlash (root :: segs)

/-- A parsed file path: its root, the list of directory names, and the
file name. -/
structure ParsedPath where
  root : String
  dirs : List String
  filename : String
deriving DecidableEq, Repr

/-- Modelled from the spec: the `parseFilePath` helper (not under src/)
splits a posix path on slashes into root, directory names, and file
name; an empty leading segment means the path is rooted at `/`. -/
def parseFilePath (path : String) : ParsedPath :=
  match (splitChar '/' path.data).map String.mk with
  | [] => ⟨"/", [], ""⟩
  | root :: rest =>
    ⟨if root = "" then "/" else root, rest.dropLast, (rest.getLast?).getD ""⟩

/-- JavaScript `Array.lastIndexOf` for an element known to be present
(callers guard membership with `includes`). -/
def lastIdxOf (x : String) : List String → Nat
  | [] => 0
  | _ :: rest => if x ∈ rest then 1 + lastIdxOf x rest else 0

/-- Sorting relation on paths: the lexicographic character order that
the JavaScript `<`/`>` comparison of the `ascending` helper implements
on strings. -/
def pathLe (a b : String) : Prop :=
  a.data ≤ b.data

instance : DecidableRel pathLe :=
  fun a b => inferInstanceAs (Decidable (a.data ≤ b.data))

instance : IsTotal String pathLe :=
  ⟨fun a b => le_total a.data b.data⟩

instance : IsTrans String pathLe :=
  ⟨fun _ _ _ h h' => le_trans h h'⟩

instance : IsAntisymm String pathLe :=
  ⟨fun a b h h' => by cases a; cases b; exact congrArg String.mk (le_antisymm h h')⟩

/-- Comparator relation of the array helper `ascending(e => e[0])`:
order cache-key entries by their path component. -/
def entryLe (a b : String × Option String) : Prop :=
  pathLe a.1 b.1

instance : DecidableRel entryLe :=
  fun a b => inferInstanceAs (Decidable (pathLe a.1 b.1))

instance : IsTotal (String × Option String) entryLe :=
  ⟨fun a b => IsTotal.total (r := pathLe) a.1 b.1⟩

instance : IsTrans (String × Option String) entryLe :=
  ⟨fun _ _ _ h h' => Trans.trans (r := pathLe) (s := pathLe) h h'⟩

/-- Bundle type enum: `VALID_BUNDLE_TYPES = ['plugin', 'entry']` in
`bundle.ts`. -/
inductive BundleType where
  | plugin
  | entry
deriving DecidableEq, Repr

/-- The JSON string spelling of a bundle type. -/
def BundleType.toStr : BundleType → String
  | .plugin => "plugin"
  | .entry => "entry"

/-- The raw bundle specification (`BundleSpec` in `bundle.ts`); an
optional field being `none` models an omitted (`undefined`) property. -/
structure BundleSpec where
  type : BundleType
  id : String
  publicDirNames : List String
  contextDir : String
  sourceRoot : String
  outputDir : String
  banner : Option String := none
  manifestPath : Option String := none
deriving DecidableEq, Repr

/-- The `Bundle` entity of `bundle.ts`: the constructor copies every
`BundleSpec` field; the derived `BundleCache` handle is keyed by
`outputDir` and carries no further data, so it is not repeated here. -/
structure Bundle where
  type : BundleType
  id : String
  publicDirNames : List String
  contextDir : String
  sourceRoot : String
  outputDir : String
  banner : Option String := none
  manifestPath : Option String := none
deriving DecidableEq, Repr

/-- The `new Bundle(spec)` constructor of `bundle.ts`. -/
def Bundle.ofSpec (s : BundleSpec) : Bundle :=
  ⟨s.type, s.id, s.publicDirNames, s.contextDir, s.sourceRoot, s.outputDir,
    s.banner, s.manifestPath⟩

/-- `Bundle.toSpec` of `bundle.ts`: project the bundle back to its raw
specification. -/
def Bundle.toSpec (b : Bundle) : BundleSpec :=
  ⟨b.type, b.id, b.publicDirNames, b.contextDir, b.sourceRoot, b.outputDir,
    b.banner, b.manifestPath⟩

/-- A structural cache key as built by `Bundle.createCacheKey`: the
bundle spec plus the path-sorted hash table (a JavaScript object,
modelled as its ordered field list). -/
structure CacheKey where
  spec : BundleSpec
  hashes : List (String × Option String)
deriving DecidableEq, Repr

/-- Modelled from the spec: one assignment `object[key] = value` of the
array helper `entriesToObject` (not under src/): a new key is appended
in insertion position, a repeated key overwrites the stored value in
place. -/
def objInsert (acc : List (String × Option String)) (e : String × Option String) :
    List (String × Option String) :=
  if e.1 ∈ acc.map Prod.fst then
    acc.map fun x => if x.1 = e.1 then (x.1, e.2) else x
  else acc ++ [e]

/-- Modelled from the spec: the array helper `entriesToObject` (not
under src/) builds a JavaScript object from a list of key/value
entries. -/
def entriesToObject (entries : List (String × Option String)) :
    List (String × Option String) :=
  entries.foldl objInsert []

/-- `Bundle.createCacheKey(files, hashes)` of `bundle.ts`: the spec plus
the entry table `files.map(p => [p, hashes.get(p)])` sorted ascending by
path (stable JavaScript `Array.sort` with the `ascending(e => e[0])`
comparator, modelled by the stable `List.insertionSort`); a file missing
from the hash map keeps its entry with an undefined (`none`) hash. The
hash `Map` is modelled by its lookup function. -/
def Bundle.createCacheKey (b : Bundle) (files : List String)
    (hashes : String → Option String) : CacheKey :=
  { spec := b.toSpec
    hashes := entriesToObject
      (List.insertionSort entryLe (files.map fun p => (p, hashes p))) }

/-- `DEFAULT_IMPLICIT_BUNDLE_DEPS = ['core']` of `bundle.ts`. -/
def DEFAULT_IMPLICIT_BUNDLE_DEPS : List String := ["core"]

/-- A file-system error as thrown by `Fs.readFileSync`, carrying its
`code` property. -/
structure FsError where
  code : String
deriving DecidableEq, Repr

/-- The possible failures of `readBundleDeps`: a propagated read error,
the JSON parse error naming the manifest path, a `TypeError` thrown by
spreading a non-iterable `requiredPlugins` value, and the
arrays-of-strings validation error naming the manifest path. -/
inductive DepsError where
  | ioError (e : FsError)
  | parseError (manifestPath : String)
  | typeError
  | validationError (manifestPath : String)
deriving DecidableEq, Repr

/-- The result of `readBundleDeps`. -/
structure BundleDeps where
  implicit : List String
  explicit : List String
deriving DecidableEq, Repr

/-- `Bundle.readBundleDeps` of `bundle.ts`. The file system and JSON
parser are modelled by `read`, the joint outcome of
`Fs.readFileSync(manifestPath, 'utf8')` and `JSON.parse`: `.error e` is
a read failure with code `e.code`, `.ok none` is content that fails to
parse as JSON, `.ok (some v)` is content parsing to `v`; the literal
`'\x7b\x7d'` substituted on `ENOENT` parses to the empty object. -/
def Bundle.readBundleDeps (b : Bundle) (read : Except FsError (Option JValue)) :
    Except DepsError BundleDeps :=
  match b.manifestPath with
  | none => .ok { implicit := DEFAULT_IMPLICIT_BUNDLE_DEPS, explicit := [] }
  | some path =>
    let parsed : Except DepsError (Option JValue) :=
      match read with
      | .error e => if e.code != "ENOENT" then .error (.ioError e) else .ok (some (.obj []))
      | .ok content => .ok content
    match parsed with
    | .error e => .error e
    | .ok none => .error (.parseError path)
    | .ok (some m) =>
      if jsObjectLike m && jsTruthy m then
        let explicit := jsOrDefault (getProp m "requiredBundles") (.arr [])
        match jsSpreadElems (jsOrDefault (getProp m "requiredPlugins") (.arr [])) with
        | none => .error .typeError
        | some plugVals =>
          let implicit := JValue.arr (DEFAULT_IMPLICIT_BUNDLE_DEPS.map JValue.str ++ plugVals)
          if isStringArray explicit && isStringArray implicit then
            .ok { explicit := (match explicit with | .arr items => strListOf items | _ => [])
                  implicit := (match implicit with | .arr items => strListOf items | _ => []) }
          else .error (.validationError path)
      else .error (.validationError path)

/-- Decode a JSON array content into a string list, `none` when some
element is not a string: the `publicDirNames` check of `parseBundles`. -/
def decodeStringList : List JValue → Option (List String)
  | [] => some []
  | .str s :: rest => (decodeStringList rest).map (s :: ·)
  | _ => none

/-- Validation of one optional absolute-path string property in
`parseBundles` (`manifestPath`). -/
def parseOptAbsolute (v : JValue) (key errMsg : String) : Except String (Option String) :=
  match getProp v key with
  | none => .ok none
  | some (.str s) => if isAbsolutePath s then .ok (some s) else .error errMsg
  | some _ => .error errMsg

/-- Validation of one optional string property in `parseBundles`
(`banner`). -/
def parseOptString (v : JValue) (key errMsg : String) : Except String (Option String) :=
  match getProp v key with
  | none => .ok none
  | some (.str s) => .ok (some s)
  | some _ => .error errMsg

/-- The per-element validation of `parseBundles` in `bundle.ts`,
following the source order: object check, `type` against the valid
bundle types, string `id`, string-array `publicDirNames`, absolute
`contextDir`, `sourceRoot`, `outputDir`, optional absolute
`manifestPath`, optional string `banner`; the first violation wins. -/
def parseOneBundle (v : JValue) : Except String Bundle :=
  if !(jsObjectLike v && jsTruthy v) then
    .error "`bundles[]` must be an object"
  else
    match (match getProp v "type" with
           | some (.str "plugin") => some BundleType.plugin
           | some (.str "entry") => some BundleType.entry
           | _ => none) with
    | none => .error "`bundles[]` must have a valid `type`"
    | some ty =>
      match getProp v "id" with
      | some (.str id) =>
        match (match getProp v "publicDirNames" with
               | some (.arr items) => decodeStringList items
               | _ => none) with
        | none => .error "`bundles[]` must have an array of strings `publicDirNames` property"
        | some publicDirNames =>
          match getProp v "contextDir" with
          | some (.str contextDir) =>
            if isAbsolutePath contextDir then
              match getProp v "sourceRoot" with
              | some (.str sourceRoot) =>
                if isAbsolutePath sourceRoot then
                  match getProp v "outputDir" with
                  | some (.str outputDir) =>
                    if isAbsolutePath outputDir then
                      match parseOptAbsolute v "manifestPath"
                          "`bundles[]` must have an absolute path `manifestPath` property" with
                      | .error e => .error e
                      | .ok manifestPath =>
                        match parseOptString v "banner"
                            "`bundles[]` must have a string `banner` property" with
                        | .error e => .error e
                        | .ok banner =>
                          .ok (Bundle.ofSpec
                            ⟨ty, id, publicDirNames, contextDir, sourceRoot, outputDir,
                              banner, manifestPath⟩)
                    else .error "`bundles[]` must have an absolute path `outputDir` property"
                  | _ => .error "`bundles[]` must have an absolute path `outputDir` property"
                else .error "`bundles[]` must have an absolute path `sourceRoot` property"
              | _ => .error "`bundles[]` must have an absolute path `sourceRoot` property"
            else .error "`bundles[]` must have an absolute path `contextDir` property"
          | _ => .error "`bundles[]` must have an absolute path `contextDir` property"
      | _ => .error "`bundles[]` must have a string `id` property"

/-- `parseBundles` of `bundle.ts`, on the parsed JSON value of its input
string (`JSON.parse` after `JSON.stringify` is the identity on JSON
values, so the string transport is modelled away); the surrounding
try/catch prepends the aggregate prefix to the first violation. -/
def parseBundles (v : JValue) : Except String (List Bundle) :=
  match (match v with
         | .arr specs => specs.mapM parseOneBundle
         | _ => .error "must be an array") with
  | .ok bundles => .ok bundles
  | .error msg => .error ("unable to parse bundles: " ++ msg)

/-- `JSON.stringify` applied to a `toSpec()` result, composed with the
`JSON.parse` of the receiving side: the object literal field order of
`toSpec`, with `undefined` fields omitted as `JSON.stringify` omits
them. -/
def specToJson (s : BundleSpec) : JValue :=
  .obj ([("type", .str s.type.toStr), ("id", .str s.id),
         ("publicDirNames", .arr (s.publicDirNames.map JValue.str)),
         ("contextDir", .str s.contextDir), ("sourceRoot", .str s.sourceRoot),
         ("outputDir", .str s.outputDir)]
    ++ (match s.manifestPath with | some m => [("manifestPath", JValue.str m)] | none => [])
    ++ (match s.banner with | some bn => [("banner", JValue.str bn)] | none => []))

/-- `EXTRA_SCSS_WORK_UNITS = 100` of `run_compilers.ts`. -/
def EXTRA_SCSS_WORK_UNITS : Nat := 100

/-- A webpack module as classified by the terminal-success loop of
`observeCompiler` in `run_compilers.ts`: the five recognised kinds —
normal modules (with their resolved path and the `buildInfo`
file dependencies read for stylesheets), bundle-ref modules carrying an
export id, concatenated modules carrying the count of subsumed modules,
external modules and ignored modules — plus `other` for a module
failing every predicate (`isNormalModule`, `instanceof BundleRefModule`,
`isConcatenatedModule`, `isExternalModule`, `isIgnoredModule`). -/
inductive WModule where
  | normal (path : String) (fileDependencies : List String)
  | bundleRef (exportId : String)
  | concatenated (innerCount : Nat)
  | external
  | ignored
  | other
deriving DecidableEq, Repr

/-- Abrupt terminations of the classification loop: the
`Unexpected module type` error thrown for an unrecognised module, and
the `TypeError` of reading `startsWith` on the undefined directory
entry after a trailing `node_modules` segment. -/
inductive ClassifyError where
  | unexpectedModuleType
  | typeError
deriving DecidableEq, Repr

/-- The accumulator of the classification loop of `observeCompiler`:
collected bundle-ref export ids, the referenced-file set (a JavaScript
`Set`, modelled as its insertion-ordered element list), the module
count, and the work units tally. -/
structure PassState where
  bundleRefExportIds : List String
  referencedFiles : List String
  moduleCount : Nat
  workUnits : Nat
deriving DecidableEq, Repr

/-- JavaScript `Set.add` on an insertion-ordered set. -/
def setAdd (s : List String) (x : String) : List String :=
  if x ∈ s then s else s ++ [x]

/-- The dependency-package manifest path computed for a normal module
under `node_modules`: `Path.join(parsedPath.root,
...parsedPath.dirs.slice(0, nmIndex + 1 + (isScoped ? 2 : 1)),
'package.json')`. -/
def depPackageManifest (root : String) (dirs : List String) (nmIndex : Nat)
    (isScoped : Bool) : String :=
  pathJoin root (dirs.take (nmIndex + 1 + (if isScoped then 2 else 1)) ++ ["package.json"])

/-- One iteration of the classification loop of `observeCompiler`
(`run_compilers.ts` lines 132-179), in source order: normal modules
count toward `moduleCount` and are either in-tree (tracked as
referenced; stylesheets add `EXTRA_SCSS_WORK_UNITS` and track their own
file dependencies) or dependency-package modules (tracked through the
nearest enclosing `package.json`, with one extra path segment for a
scoped package); bundle-ref modules record their export id; concatenated
modules add their subsumed module count; external and ignored modules
are skipped; anything else throws. -/
def classifyModule (st : PassState) (m : WModule) : Except ClassifyError PassState :=
  match m with
  | .normal path deps =>
    let st := { st with moduleCount := st.moduleCount + 1 }
    let parsed := parseFilePath path
    if "node_modules" ∉ parsed.dirs then
      let st := { st with referencedFiles := setAdd st.referencedFiles path }
      if strEndsWith path ".scss" then
        .ok { st with workUnits := st.workUnits + EXTRA_SCSS_WORK_UNITS
                      referencedFiles := deps.foldl setAdd st.referencedFiles }
      else .ok st
    else
      let nmIndex := lastIdxOf "node_modules" parsed.dirs
      match parsed.dirs[nmIndex + 1]? with
      | none => .error .typeError
      | some seg =>
        let manifest := depPackageManifest parsed.root parsed.dirs nmIndex
          (strStartsWith seg "@")
        .ok { st with referencedFiles := setAdd st.referencedFiles manifest }
  | .bundleRef exportId =>
    .ok { st with bundleRefExportIds := st.bundleRefExportIds ++ [exportId] }
  | .concatenated innerCount =>
    .ok { st with moduleCount := st.moduleCount + innerCount }
  | .external => .ok st
  | .ignored => .ok st
  | .other => .error .unexpectedModuleType

/-- The classification loop over `stats.compilation.modules` with its
initial state: `workUnits` starts at
`stats.compilation.fileDependencies.size` (`rawFileDepCount`), and the
bundle's own manifest path, when set, is pre-added to the
referenced-file set. -/
def classifyModules (manifestPath : Option String) (rawFileDepCount : Nat)
    (modules : List WModule) : Except ClassifyError PassState :=
  modules.foldlM classifyModule
    { bundleRefExportIds := []
      referencedFiles := match manifestPath with | some m => [m] | none => []
      moduleCount := 0
      workUnits := rawFileDepCount }

/-- Whether a module is an in-tree stylesheet module: a normal module
outside `node_modules` whose path ends in `.scss` — the modules that
receive the extra work-unit weight. -/
def isInTreeScss (m : WModule) : Bool :=
  match m with
  | .normal path _ =>
    !(decide ("node_modules" ∈ (parseFilePath path).dirs)) && strEndsWith path ".scss"
  | _ => false

/-- Whether a module belongs to the closed set of five recognised
kinds. -/
def isKnownModule (m : WModule) : Bool :=
  match m with
  | .other => false
  | _ => true

/-- `Array.from(referencedFiles).sort(ascending(p => p))` of
`run_compilers.ts`. -/
def sortFiles (files : List String) : List String :=
  List.insertionSort pathLe files

/-- The per-bundle compiler event protocol (`CompilerMsg`). -/
inductive CompilerMsg where
  | running (bundleId : String)
  | compilerSuccess (bundleId : String) (moduleCount : Nat)
  | compilerFailure (bundleId : String) (failure : String)
  | compilerError (bundleId : String) (message : String)
deriving DecidableEq, Repr

/-- The persisted cache record, the argument of `bundle.cache.set` in
`run_compilers.ts`; fields that the integration test omits when seeding
records default to their empty values. -/
structure CacheRecord where
  bundleRefExportIds : List String
  optimizerCacheKey : Option String
  cacheKey : Option CacheKey
  moduleCount : Nat := 0
  workUnits : Nat := 0
  files : List String := []
deriving DecidableEq, Repr

/-- The trailing `.catch(_err => ...)` of the persistence chain: any
rejection is swallowed, the settled background task never fails. -/
def promiseCatchIgnore (r : Except String Unit) : Except String Unit :=
  match r with
  | .ok _ => .ok ()
  | .error _ => .ok ()

/-- The terminal-success tail of `observeCompiler` (`run_compilers.ts`
lines 123-201): run the classification loop, sort the referenced-file
set, spawn the fire-and-forget persistence chain
`getHashes(files).then(h => bundle.cache.set(record)).catch(ignore)` —
its two asynchronous outcomes abstracted as `getHashesOutcome` and
`cacheSetOutcome` — and return the emitted compile event paired with the
settled state of that background task. -/
def observeTerminalSuccess (b : Bundle) (optimizerCacheKey : String)
    (rawFileDepCount : Nat) (modules : List WModule)
    (getHashesOutcome : Except String (String → Option String))
    (cacheSetOutcome : CacheRecord → Except String Unit) :
    Except ClassifyError (CompilerMsg × Except String Unit) :=
  match classifyModules b.manifestPath rawFileDepCount modules with
  | .error e => .error e
  | .ok r =>
    let files := sortFiles r.referencedFiles
    let persisted := promiseCatchIgnore
      (match getHashesOutcome with
       | .error e => .error e
       | .ok hashes =>
         cacheSetOutcome
           { bundleRefExportIds := r.bundleRefExportIds
             optimizerCacheKey := some optimizerCacheKey
             cacheKey := some (b.createCacheKey files hashes)
             moduleCount := r.moduleCount
             workUnits := r.workUnits
             files := files })
    .ok (CompilerMsg.compilerSuccess b.id r.moduleCount, persisted)

/-- A cache decision for one bundle: `bundle not cached` with its reason
string, or `bundle cached`. -/
inductive BundleCacheEvent where
  | notCached (reason : String)
  | cached
deriving DecidableEq, Repr

/-- Boolean set equality of two string lists. -/
def listSetEq (a b : List String) : Bool :=
  (a.all fun x => b.contains x) && (b.all fun x => a.contains x)

/-- Modelled from the spec: the per-bundle cache decision core of
`getBundleCacheEvent$` (`optimizer/bundle_cache.ts`, which is not under
src/), following the priority order of spec section 4.3 with the reason
strings and the stored-versus-current orientation pinned by
`integration_tests/bundle_cache.test.ts` (a record whose own
`optimizerCacheKey` is unset reports `missing optimizer cache key`).
The freshly resolved inputs are supplied: `freshRefExportIds` is the
bundle-ref export id set resolved for this build, and `files`/`hashes`
feed the `createCacheKey` recomputation of step 6. -/
def getBundleCacheDecision (cacheEnabled : Bool) (optimizerCacheKey : String)
    (record : CacheRecord) (freshRefExportIds : List String)
    (b : Bundle) (files : List String) (hashes : String → Option String) :
    BundleCacheEvent :=
  if !cacheEnabled then .notCached "cache disabled"
  else match record.optimizerCacheKey with
    | none => .notCached "missing optimizer cache key"
    | some k =>
      if k ≠ optimizerCacheKey then .notCached "optimizer cache key mismatch"
      else if !listSetEq record.bundleRefExportIds freshRefExportIds then
        .notCached "bundle references outdated"
      else match record.cacheKey with
        | none => .notCached "missing cache key"
        | some ck =>
          if ck ≠ b.createCacheKey files hashes then .notCached "cache key mismatch"
          else .cached

theorem objInsert_keys_of_mem (acc : List (String × Option String))
    (e : String × Option String) (h : e.1 ∈ acc.map Prod.fst) :
    (objInsert acc e).map Prod.fst = acc.map Prod.fst := by
  rw [objInsert, if_pos h, List.map_map]
  apply List.map_congr_left
  intro x _
  by_cases hx : x.1 = e.1 <;> simp [hx]

theorem objInsert_keys_of_not_mem (acc : List (String × Option String))
    (e : String × Option String) (h : e.1 ∉ acc.map Prod.fst) :
    (objInsert acc e).map Prod.fst = acc.map Prod.fst ++ [e.1] := by
  rw [objInsert, if_neg h]
  simp

theorem foldl_objInsert_keys_sorted (l : List (String × Option String)) :
    ∀ acc, List.Sorted pathLe (acc.map Prod.fst ++ l.map Prod.fst) →
    List.Sorted pathLe ((l.foldl objInsert acc).map Prod.fst) := by
  induction l with
  | nil => intro acc h; simpa using h
  | cons e l ih =>
    intro acc h
    simp only [List.map_cons] at h
    rw [List.foldl_cons]
    by_cases hc : e.1 ∈ acc.map Prod.fst
    · apply ih
      rw [objInsert_keys_of_mem acc e hc]
      refine List.Pairwise.sublist ?_ h
      exact ((l.map Prod.fst).sublist_cons_self e.1).append_left _
    · apply ih
      rw [objInsert_keys_of_not_mem acc e hc]
      simpa [List.append_assoc] using h

theorem foldl_objInsert_functional (h : String → Option String)
    (l : List (String × Option String)) :
    ∀ acc, (∀ x ∈ acc, x.2 = h x.1) → (∀ x ∈ l, x.2 = h x.1) →
    ∀ x ∈ l.foldl objInsert acc, x.2 = h x.1 := by
  induction l with
  | nil => intro acc hacc _ x hx; exact hacc x (by simpa using hx)
  | cons e l ih =>
    intro acc hacc hl
    rw [List.foldl_cons]
    apply ih
    · intro x hx
      rw [objInsert] at hx
      by_cases hc : e.1 ∈ acc.map Prod.fst
      · rw [if_pos hc] at hx
        rcases List.mem_map.mp hx with ⟨y, hy, rfl⟩
        by_cases hy1 : y.1 = e.1
        · rw [if_pos hy1]
          show e.2 = h y.1
          rw [hy1]
          exact hl e (List.mem_cons_self e l)
        · rw [if_neg hy1]
          exact hacc y hy
      · rw [if_neg hc] at hx
        rcases List.mem_append.mp hx with hy | hy
        · exact hacc x hy
        · rcases List.mem_singleton.mp hy with rfl
          exact hl _ (List.mem_cons_self _ _)
    · intro x hx
      exact hl x (List.mem_cons_of_mem e hx)

theorem foldl_objInsert_keys_mem (l : List (String × Option String)) :
    ∀ acc k, (k ∈ acc.map Prod.fst ∨ k ∈ l.map Prod.fst) →
    k ∈ (l.foldl objInsert acc).map Prod.fst := by
  induction l with
  | nil =>
    intro acc k hk
    exact hk.resolve_right (by simp)
  | cons e l ih =>
    intro acc k hk
    rw [List.foldl_cons]
    apply ih
    by_cases hc : e.1 ∈ acc.map Prod.fst
    · rw [objInsert_keys_of_mem acc e hc]
      rcases hk with h | h
      · exact Or.inl h
      · simp only [List.map_cons, List.mem_cons] at h
        rcases h with rfl | h
        · exact Or.inl hc
        · exact Or.inr h
    · rw [objInsert_keys_of_not_mem acc e hc]
      rcases hk with h | h
      · exact Or.inl (List.mem_append_left _ h)
      · simp only [List.map_cons, List.mem_cons] at h
        rcases h with rfl | h
        · exact Or.inl (List.mem_append_right _ (List.mem_singleton_self _))
        · exact Or.inr h

theorem functional_eq_keys_map (h : String → Option String) :
    ∀ (l : List (String × Option String)), (∀ x ∈ l, x.2 = h x.1) →
    l = (l.map Prod.fst).map fun k => (k, h k) := by
  intro l
  induction l with
  | nil => intro _; rfl
  | cons x l ih =>
    intro hf
    obtain ⟨x1, x2⟩ := x
    have hx : x2 = h x1 := hf (x1, x2) (List.mem_cons_self _ _)
    simp only [List.map_cons]
    rw [← ih fun y hy => hf y (List.mem_cons_of_mem _ hy), hx]

theorem sorted_functional_perm_eq (h : String → Option String)
    (l₁ l₂ : List (String × Option String)) (hp : l₁.Perm l₂)
    (hs₁ : List.Sorted entryLe l₁) (hs₂ : List.Sorted entryLe l₂)
    (hf₁ : ∀ x ∈ l₁, x.2 = h x.1) (hf₂ : ∀ x ∈ l₂, x.2 = h x.1) : l₁ = l₂ := by
  have hkeys : l₁.map Prod.fst = l₂.map Prod.fst := by
    have hm₁ : List.Sorted pathLe (l₁.map Prod.fst) :=
      List.Pairwise.map Prod.fst (fun a b hab => hab) hs₁
    have hm₂ : List.Sorted pathLe (l₂.map Prod.fst) :=
      List.Pairwise.map Prod.fst (fun a b hab => hab) hs₂
    exact List.eq_of_perm_of_sorted (hp.map Prod.fst) hm₁ hm₂
  calc l₁ = (l₁.map Prod.fst).map (fun k => (k, h k)) := functional_eq_keys_map h l₁ hf₁
    _ = (l₂.map Prod.fst).map (fun k => (k, h k)) := by rw [hkeys]
    _ = l₂ := (functional_eq_keys_map h l₂ hf₂).symm

theorem insertionSort_entries_functional (h : String → Option String)
    (files : List String) (hashes : String → Option String)
    (hagree : ∀ p, hashes p = h p) :
    ∀ x ∈ List.insertionSort entryLe (files.map fun p => (p, hashes p)),
      x.2 = h x.1 := by
  intro x hx
  have hx' : x ∈ files.map fun p => (p, hashes p) :=
    ((List.perm_insertionSort entryLe _).mem_iff).mp hx
  rcases List.mem_map.mp hx' with ⟨p, _, rfl⟩
  exact hagree p

/-- C2: `createCacheKey` is a pure, order-independent function: for any
permutation of the file list and any extensionally equal hash maps the
keys are structurally identical; the key consists of the bundle's spec
plus a hash table sorted by file path; and a file whose hash is absent
keeps its entry with an undefined (`none`) value rather than being
dropped. -/
theorem createCacheKey_pure_sorted_total (b : Bundle) (files₁ files₂ : List String)
    (h₁ h₂ : String → Option String) (hperm : files₁.Perm files₂)
    (hext : ∀ p, h₁ p = h₂ p) :
    b.createCacheKey files₁ h₁ = b.createCacheKey files₂ h₂ ∧
    (b.createCacheKey files₁ h₁).spec = b.toSpec ∧
    List.Sorted pathLe ((b.createCacheKey files₁ h₁).hashes.map Prod.fst) ∧
    ∀ p ∈ files₁, (p, h₁ p) ∈ (b.createCacheKey files₁ h₁).hashes := by
  have hsorted₁ := List.sorted_insertionSort entryLe (files₁.map fun p => (p, h₁ p))
  have hsorted₂ := List.sorted_insertionSort entryLe (files₂.map fun p => (p, h₂ p))
  have hfun₁ := insertionSort_entries_functional h₁ files₁ h₁ (fun _ => rfl)
  have hfun₂ := insertionSort_entries_functional h₁ files₂ h₂ (fun p => (hext p).symm)
  have hpairs : (files₁.map fun p => (p, h₁ p)).Perm (files₂.map fun p => (p, h₂ p)) := by
    have : (fun p => (p, h₂ p)) = fun p => (p, h₁ p) := by
      funext p; rw [hext p]
    rw [this]
    exact hperm.map _
  have hsortsPerm :
      (List.insertionSort entryLe (files₁.map fun p => (p, h₁ p))).Perm
        (List.insertionSort entryLe (files₂.map fun p => (p, h₂ p))) :=
    ((List.perm_insertionSort entryLe _).trans hpairs).trans
      (List.perm_insertionSort entryLe _).symm
  have hsorts : List.insertionSort entryLe (files₁.map fun p => (p, h₁ p)) =
      List.insertionSort entryLe (files₂.map fun p => (p, h₂ p)) :=
    sorted_functional_perm_eq h₁ _ _ hsortsPerm hsorted₁ hsorted₂ hfun₁ hfun₂
  refine ⟨?_, rfl, ?_, ?_⟩
  · simp only [Bundle.createCacheKey]
    rw [hsorts]
  · apply foldl_objInsert_keys_sorted
    simp only [List.map_nil, List.nil_append]
    exact List.Pairwise.map Prod.fst (fun a b hab => hab) hsorted₁
  · intro p hp
    have hkey : p ∈ (List.insertionSort entryLe
        (files₁.map fun p => (p, h₁ p))).map Prod.fst := by
      refine (((List.perm_insertionSort entryLe _).map Prod.fst).mem_iff).mpr ?_
      simp only [List.map_map]
      simpa using hp
    have hmem := foldl_objInsert_keys_mem _ [] p (Or.inr hkey)
    rcases List.mem_map.mp hmem with ⟨x, hx, hx1⟩
    have hx2 := foldl_objInsert_functional h₁ _ [] (by simp) hfun₁ x hx
    obtain ⟨x1, x2⟩ := x
    cases hx1
    rw [show x2 = h₁ x1 from hx2] at hx
    exact hx

theorem createCacheKey_pure_sorted_total_witness :
    List.Perm ["/b", "/a"] ["/a", "/b"] ∧
    (("/b", (none : Option String)) ∈
      (Bundle.createCacheKey ⟨.plugin, "w2", [], "/c", "/s", "/o", none, none⟩
        ["/b", "/a"] (fun p => if p = "/a" then some "ha" else none)).hashes) :=
  ⟨by decide,
    (createCacheKey_pure_sorted_total
      ⟨.plugin, "w2", [], "/c", "/s", "/o", none, none⟩ ["/b", "/a"] ["/a", "/b"]
      (fun p => if p = "/a" then some "ha" else none)
      (fun p => if p = "/a" then some "ha" else none)
      (by decide) (fun _ => rfl)).2.2.2 "/b" (by decide)⟩

/-- C10: `createCacheKey` depends only on the hash entries of the listed
files: two hash maps agreeing on every listed path yield structurally
equal keys, so entries for paths outside the file list never influence
the key. -/
theorem createCacheKey_ignores_unlisted (b : Bundle) (files : List String)
    (h₁ h₂ : String → Option String) (hagree : ∀ p ∈ files, h₁ p = h₂ p) :
    b.createCacheKey files h₁ = b.createCacheKey files h₂ := by
  simp only [Bundle.createCacheKey]
  have : files.map (fun p => (p, h₁ p)) = files.map fun p => (p, h₂ p) :=
    List.map_congr_left fun p hp => by rw [hagree p hp]
  rw [this]

theorem createCacheKey_ignores_unlisted_witness :
    Bundle.createCacheKey ⟨.plugin, "w10", [], "/c", "/s", "/o", none, none⟩ ["/a"]
      (fun p => if p = "/a" then some "ha" else some "noise") =
    Bundle.createCacheKey ⟨.plugin, "w10", [], "/c", "/s", "/o", none, none⟩ ["/a"]
      (fun p => if p = "/a" then some "ha" else none) :=
  createCacheKey_ignores_unlisted _ ["/a"] _ _
    (fun p hp => by rcases List.mem_singleton.mp hp with rfl; rfl)

theorem decodeStringList_map_str (l : List String) :
    decodeStringList (l.map JValue.str) = some l := by
  induction l with
  | nil => rfl
  | cons s l ih => simp [decodeStringList, ih]

theorem parseBundles_singleton (v : JValue) :
    parseBundles (JValue.arr [v]) =
      match parseOneBundle v with
      | .ok b => .ok [b]
      | .error msg => .error ("unable to parse bundles: " ++ msg) := by
  cases h : parseOneBundle v <;>
    simp [parseBundles, List.mapM, List.mapM.loop, h, Except.bind, Except.pure]

/-- C3: `toSpec` round-trips through parsing: for every validly
constructed bundle (absolute `contextDir`, `sourceRoot`, `outputDir`,
and absolute `manifestPath` when present), serialising `toSpec()` into a
one-element bundle list and parsing it back succeeds and returns a
bundle with field-for-field equality on every `BundleSpec` field. -/
theorem toSpec_roundTrip (b : Bundle)
    (hc : isAbsolutePath b.contextDir = true)
    (hs : isAbsolutePath b.sourceRoot = true)
    (ho : isAbsolutePath b.outputDir = true)
    (hm : ∀ m, b.manifestPath = some m → isAbsolutePath m = true) :
    parseBundles (JValue.arr [specToJson b.toSpec]) = .ok [b] := by
  have hone : parseOneBundle (specToJson b.toSpec) = .ok b := by
    obtain ⟨ty, bid, pdn, cd, sr, od, ba, mp⟩ := b
    dsimp only at hc hs ho hm
    cases mp with
    | none =>
      cases ba <;> cases ty <;>
        simp [parseOneBundle, specToJson, getProp, lookupField, jsObjectLike,
          jsTruthy, BundleType.toStr, parseOptAbsolute, parseOptString,
          decodeStringList_map_str, Bundle.toSpec, Bundle.ofSpec, hc, hs, ho]
    | some m =>
      have hm' := hm m rfl
      cases ba <;> cases ty <;>
        simp [parseOneBundle, specToJson, getProp, lookupField, jsObjectLike,
          jsTruthy, BundleType.toStr, parseOptAbsolute, parseOptString,
          decodeStringList_map_str, Bundle.toSpec, Bundle.ofSpec, hc, hs, ho, hm']
  rw [parseBundles_singleton, hone]

theorem toSpec_roundTrip_witness :
    parseBundles (JValue.arr [specToJson (Bundle.toSpec
      ⟨.plugin, "foo", ["public"], "/r/p", "/r", "/r/o", some "BANNER",
        some "/r/p/m.json"⟩)]) =
    .ok [⟨.plugin, "foo", ["public"], "/r/p", "/r", "/r/o", some "BANNER",
      some "/r/p/m.json"⟩] :=
  toSpec_roundTrip _ (by decide) (by decide) (by decide)
    (fun m hmEq => by cases hmEq; decide)

theorem jsTruthy_obj (fields : List (String × JValue)) :
    jsTruthy (.obj fields) = true := rfl

theorem jsTruthy_arr (items : List JValue) :
    jsTruthy (.arr items) = true := rfl

theorem jsTruthy_jstr (s : String) :
    jsTruthy (.str s) = (s != "") := rfl

theorem jsObjectLike_obj (fields : List (String × JValue)) :
    jsObjectLike (.obj fields) = true := rfl

theorem jsSpreadElems_arr (items : List JValue) :
    jsSpreadElems (.arr items) = some items := rfl

theorem jsSpreadElems_jstr (s : String) :
    jsSpreadElems (.str s) = some (s.data.map fun c => .str (String.mk [c])) := rfl

theorem isStringArray_arr (items : List JValue) :
    isStringArray (.arr items) =
      items.all (fun v => match v with | .str _ => true | _ => false) := rfl

theorem isStringArray_str_cons (s : String) (items : List JValue) :
    isStringArray (.arr (JValue.str s :: items)) = isStringArray (.arr items) := by
  simp [isStringArray]

theorem isStringArray_map_str (l : List String) :
    isStringArray (.arr (l.map JValue.str)) = true := by
  induction l with
  | nil => rfl
  | cons s l ih => simp [isStringArray, ih]

theorem isStringArray_char_strs (cs : List Char) :
    isStringArray (.arr (cs.map fun c => JValue.str (String.mk [c]))) = true := by
  induction cs with
  | nil => rfl
  | cons c cs ih => simp [isStringArray, ih]

theorem strVal_str (s : String) : strVal (.str s) = s := rfl

theorem strListOf_nil : strListOf [] = [] := rfl

theorem strListOf_cons (v : JValue) (items : List JValue) :
    strListOf (v :: items) = strVal v :: strListOf items := rfl

theorem strListOf_map_str (l : List String) :
    strListOf (l.map JValue.str) = l := by
  simp only [strListOf, List.map_map]
  exact (List.map_congr_left fun a _ => rfl).trans (List.map_id l)

theorem strListOf_char_strs (cs : List Char) :
    strListOf (cs.map fun c => JValue.str (String.mk [c])) =
      cs.map fun c => String.mk [c] := by
  simp only [strListOf, List.map_map]
  exact List.map_congr_left fun a _ => rfl

/-- C4: `readBundleDeps` returns the documented dependency sets: with no
`manifestPath` it returns the baseline implicit dependency and no
explicit ones; with a manifest parsing to an object whose
`requiredBundles`/`requiredPlugins` are string arrays (each possibly
absent), it returns the baseline dependency followed by
`requiredPlugins` in order as `implicit` and `requiredBundles` (or empty
when the field is absent) as `explicit`. -/
theorem readBundleDeps_documented (b : Bundle) (read : Except FsError (Option JValue)) :
    (b.manifestPath = none → b.readBundleDeps read = .ok ⟨["core"], []⟩) ∧
    (∀ (path : String) (fields : List (String × JValue))
      (obs ops : Option (List String)),
      b.manifestPath = some path →
      read = .ok (some (.obj fields)) →
      lookupField "requiredBundles" fields =
        (obs.map fun bs => JValue.arr (bs.map JValue.str)) →
      lookupField "requiredPlugins" fields =
        (ops.map fun ps => JValue.arr (ps.map JValue.str)) →
      b.readBundleDeps read = .ok ⟨"core" :: ops.getD [], obs.getD []⟩) := by
  constructor
  · intro hmp
    simp [Bundle.readBundleDeps, hmp, DEFAULT_IMPLICIT_BUNDLE_DEPS]
  · intro path fields obs ops hmp hread hrb hrp
    subst hread
    cases obs <;> cases ops <;>
      simp [Bundle.readBundleDeps, hmp, getProp, hrb, hrp, jsObjectLike_obj,
        jsTruthy_obj, jsTruthy_arr, jsOrDefault, jsSpreadElems_arr,
        isStringArray_arr, isStringArray_str_cons, isStringArray_map_str,
        strListOf_nil, strListOf_cons, strVal_str, strListOf_map_str,
        DEFAULT_IMPLICIT_BUNDLE_DEPS]

theorem readBundleDeps_documented_witness :
    (Bundle.readBundleDeps ⟨.plugin, "w4a", [], "/c", "/s", "/o", none, none⟩
      (.error ⟨"EACCES"⟩) = .ok ⟨["core"], []⟩) ∧
    (Bundle.readBundleDeps ⟨.plugin, "w4b", [], "/c", "/s", "/o", none, some "/m.json"⟩
      (.ok (some (.obj [("requiredBundles", .arr [.str "x"]),
        ("requiredPlugins", .arr [.str "y"])]))) = .ok ⟨["core", "y"], ["x"]⟩) :=
  ⟨(readBundleDeps_documented ⟨.plugin, "w4a", [], "/c", "/s", "/o", none, none⟩
      (.error ⟨"EACCES"⟩)).1 rfl,
    (readBundleDeps_documented ⟨.plugin, "w4b", [], "/c", "/s", "/o", none, some "/m.json"⟩
      (.ok (some (.obj [("requiredBundles", .arr [.str "x"]),
        ("requiredPlugins", .arr [.str "y"])])))).2
      "/m.json" [("requiredBundles", .arr [.str "x"]),
        ("requiredPlugins", .arr [.str "y"])] (some ["x"]) (some ["y"]) rfl rfl rfl rfl⟩

theorem readBundleDeps_falsy_field_cex :
    Bundle.readBundleDeps ⟨.plugin, "cex5", [], "/c", "/s", "/o", none, some "/m.json"⟩
      (.ok (some (.obj [("requiredBundles", JValue.null)]))) = .ok ⟨["core"], []⟩ := rfl

/-- C5 (amended): with a `manifestPath` set, a missing manifest file
(`ENOENT`) is treated as the empty object and the call succeeds with the
default dependency sets, while any other read failure propagates; a JSON
parse failure raises an error naming the manifest path; a present but
falsy `requiredBundles`/`requiredPlugins` value is treated as absent; a
present truthy `requiredBundles` that is not an array of strings, or a
truthy `requiredPlugins` array containing a non-string, raises the
validation error naming the manifest path; a truthy non-iterable
`requiredPlugins` raises a `TypeError` instead; and a nonempty string
`requiredPlugins` is spread into its characters and the call succeeds
with those one-character strings appended to the baseline dependency. -/
theorem readBundleDeps_error_handling (b : Bundle) (path : String)
    (hpath : b.manifestPath = some path) :
    (∀ e : FsError, e.code = "ENOENT" →
      b.readBundleDeps (.error e) = .ok ⟨["core"], []⟩) ∧
    (∀ e : FsError, e.code ≠ "ENOENT" →
      b.readBundleDeps (.error e) = .error (.ioError e)) ∧
    (b.readBundleDeps (.ok none) = .error (.parseError path)) ∧
    (∀ rb rp, jsTruthy rb = false → jsTruthy rp = false →
      b.readBundleDeps (.ok (some (.obj
        [("requiredBundles", rb), ("requiredPlugins", rp)]))) = .ok ⟨["core"], []⟩) ∧
    (∀ rb, jsTruthy rb = true → isStringArray rb = false →
      b.readBundleDeps (.ok (some (.obj [("requiredBundles", rb)]))) =
        .error (.validationError path)) ∧
    (∀ items,
      items.all (fun v => match v with | JValue.str _ => true | _ => false) = false →
      b.readBundleDeps (.ok (some (.obj [("requiredPlugins", JValue.arr items)]))) =
        .error (.validationError path)) ∧
    (∀ rp, jsTruthy rp = true → jsSpreadElems rp = none →
      b.readBundleDeps (.ok (some (.obj [("requiredPlugins", rp)]))) =
        .error DepsError.typeError) ∧
    (∀ s : String, s ≠ "" →
      b.readBundleDeps (.ok (some (.obj [("requiredPlugins", JValue.str s)]))) =
        .ok ⟨"core" :: s.data.map (fun c => String.mk [c]), []⟩) := by
  refine ⟨?_, ?_, ?_, ?_, ?_, ?_, ?_, ?_⟩
  · intro e hcode
    simp [Bundle.readBundleDeps, hpath, hcode, getProp, lookupField,
      jsObjectLike_obj, jsTruthy_obj, jsOrDefault, jsSpreadElems_arr,
      isStringArray_arr, isStringArray_str_cons, strListOf_nil, strListOf_cons,
      strVal_str, DEFAULT_IMPLICIT_BUNDLE_DEPS]
  · intro e hcode
    simp [Bundle.readBundleDeps, hpath, bne_iff_ne, hcode]
  · simp [Bundle.readBundleDeps, hpath]
  · intro rb rp htrb htrp
    simp [Bundle.readBundleDeps, hpath, getProp, lookupField, jsObjectLike_obj,
      jsTruthy_obj, jsOrDefault, htrb, htrp, jsSpreadElems_arr, isStringArray_arr,
      isStringArray_str_cons, strListOf_nil, strListOf_cons, strVal_str,
      DEFAULT_IMPLICIT_BUNDLE_DEPS]
  · intro rb htrb hsarr
    simp [Bundle.readBundleDeps, hpath, getProp, lookupField, jsObjectLike_obj,
      jsTruthy_obj, jsOrDefault, htrb, hsarr, jsSpreadElems_arr, isStringArray_arr,
      isStringArray_str_cons, DEFAULT_IMPLICIT_BUNDLE_DEPS]
  · intro items hitems
    simp [Bundle.readBundleDeps, hpath, getProp, lookupField, jsObjectLike_obj,
      jsTruthy_obj, jsTruthy_arr, jsOrDefault, jsSpreadElems_arr, isStringArray_arr,
      isStringArray_str_cons, hitems, DEFAULT_IMPLICIT_BUNDLE_DEPS]
  · intro rp htrp hspread
    simp [Bundle.readBundleDeps, hpath, getProp, lookupField, jsObjectLike_obj,
      jsTruthy_obj, jsOrDefault, htrp, hspread, DEFAULT_IMPLICIT_BUNDLE_DEPS]
  · intro s hse
    simp [Bundle.readBundleDeps, hpath, getProp, lookupField, jsObjectLike_obj,
      jsTruthy_obj, jsTruthy_jstr, bne_iff_ne, hse, jsOrDefault, jsSpreadElems_jstr,
      isStringArray_arr, isStringArray_str_cons, isStringArray_char_strs,
      strListOf_nil, strListOf_cons,
      strVal_str, strListOf_char_strs, DEFAULT_IMPLICIT_BUNDLE_DEPS]

theorem readBundleDeps_error_handling_witness :
    (Bundle.readBundleDeps ⟨.plugin, "w5", [], "/c", "/s", "/o", none, some "/m.json"⟩
      (.error ⟨"ENOENT"⟩) = .ok ⟨["core"], []⟩) ∧
    (Bundle.readBundleDeps ⟨.plugin, "w5", [], "/c", "/s", "/o", none, some "/m.json"⟩
      (.error ⟨"EACCES"⟩) = .error (.ioError ⟨"EACCES"⟩)) ∧
    (Bundle.readBundleDeps ⟨.plugin, "w5", [], "/c", "/s", "/o", none, some "/m.json"⟩
      (.ok (some (.obj [("requiredBundles", JValue.str "oops")]))) =
        .error (.validationError "/m.json")) ∧
    (Bundle.readBundleDeps ⟨.plugin, "w5", [], "/c", "/s", "/o", none, some "/m.json"⟩
      (.ok (some (.obj [("requiredPlugins", JValue.num 5)]))) =
        .error DepsError.typeError) :=
  ⟨(readBundleDeps_error_handling _ "/m.json" rfl).1 ⟨"ENOENT"⟩ rfl,
    (readBundleDeps_error_handling _ "/m.json" rfl).2.1 ⟨"EACCES"⟩ (by decide),
    (readBundleDeps_error_handling _ "/m.json" rfl).2.2.2.2.1
      (JValue.str "oops") rfl rfl,
    (readBundleDeps_error_handling _ "/m.json" rfl).2.2.2.2.2.2.1
      (JValue.num 5) rfl rfl⟩

/-- C6: a dependency-package module — a normal module whose parsed path
contains a `node_modules` directory (with a package-name segment after
the last one, as every installed package layout has) — is classified by
resolving the nearest enclosing package manifest, with one extra path
segment when that segment is scoped (starts with `@`), and that
`package.json` is tracked as the referenced file instead of the module
file itself. -/
theorem depPackage_module_tracks_manifest (st : PassState) (path : String)
    (deps : List String) (seg pkg : String)
    (h1 : "node_modules" ∈ (parseFilePath path).dirs)
    (h2 : (parseFilePath path).dirs[lastIdxOf "node_modules"
      (parseFilePath path).dirs + 1]? = some seg)
    (h3 : depPackageManifest (parseFilePath path).root (parseFilePath path).dirs
      (lastIdxOf "node_modules" (parseFilePath path).dirs)
      (strStartsWith seg "@") = pkg) :
    classifyModule st (.normal path deps) =
      .ok { st with
            moduleCount := st.moduleCount + 1,
            referencedFiles := setAdd st.referencedFiles pkg } ∧
    (path ≠ pkg → path ∉ st.referencedFiles →
      ∀ st', classifyModule st (.normal path deps) = .ok st' →
        path ∉ st'.referencedFiles) := by
  have hok : classifyModule st (.normal path deps) =
      .ok { st with
            moduleCount := st.moduleCount + 1,
            referencedFiles := setAdd st.referencedFiles pkg } := by
    simp [classifyModule, h1, h2, h3]
  refine ⟨hok, ?_⟩
  intro hne hnotin st' hst'
  rw [hok] at hst'
  injection hst' with hst'
  rw [← hst']
  by_cases hmem : pkg ∈ st.referencedFiles
  · simpa [setAdd, hmem] using hnotin
  · intro hcontra
    rw [setAdd, if_neg hmem] at hcontra
    rcases List.mem_append.mp hcontra with h | h
    · exact hnotin h
    · exact hne (List.mem_singleton.mp h)

theorem depPackage_module_tracks_manifest_witness :
    classifyModule ⟨[], [], 0, 0⟩
        (.normal "/repo/node_modules/@scope/pkg/lib/x.js" []) =
      .ok ⟨[], ["/repo/node_modules/@scope/pkg/package.json"], 1, 0⟩ ∧
    "/repo/node_modules/@scope/pkg/lib/x.js" ∉
      (⟨[], ["/repo/node_modules/@scope/pkg/package.json"], 1, 0⟩ :
        PassState).referencedFiles := by
  have h := depPackage_module_tracks_manifest ⟨[], [], 0, 0⟩
    "/repo/node_modules/@scope/pkg/lib/x.js" [] "@scope"
    "/repo/node_modules/@scope/pkg/package.json"
    (by decide) (by decide) (by decide)
  exact ⟨h.1.trans (by rfl),
    h.2 (by decide) (by decide) _ (h.1.trans (by rfl))⟩

theorem classifyModule_known_no_unexpected (st : PassState) (m : WModule)
    (hk : isKnownModule m = true) :
    classifyModule st m ≠ .error .unexpectedModuleType := by
  cases m with
  | normal path deps =>
    by_cases hnm : "node_modules" ∈ (parseFilePath path).dirs
    · cases hseg : (parseFilePath path).dirs[lastIdxOf "node_modules"
        (parseFilePath path).dirs + 1]? with
      | none => simp [classifyModule, hnm, hseg]
      | some seg => simp [classifyModule, hnm, hseg]
    · by_cases hscss : strEndsWith path ".scss" = true
      · simp [classifyModule, hnm, hscss]
      · simp [classifyModule, hnm, hscss]
  | bundleRef eid => simp [classifyModule]
  | concatenated k => simp [classifyModule]
  | external => simp [classifyModule]
  | ignored => simp [classifyModule]
  | other => simp [isKnownModule] at hk

theorem classifyModules_known_no_unexpected :
    ∀ (modules : List WModule) (st : PassState),
    (∀ m ∈ modules, isKnownModule m = true) →
    modules.foldlM classifyModule st ≠ .error .unexpectedModuleType := by
  intro modules
  induction modules with
  | nil =>
    intro st _ habs
    exact Except.noConfusion
      (show (Except.ok st : Except ClassifyError PassState) =
        .error .unexpectedModuleType from habs)
  | cons m l ih =>
    intro st hk habs
    rw [List.foldlM_cons] at habs
    cases h : classifyModule st m with
    | error e =>
      rw [h] at habs
      have h2 : (Except.error e : Except ClassifyError PassState) =
          .error .unexpectedModuleType := habs
      injection h2 with h2
      exact classifyModule_known_no_unexpected st m
        (hk m (List.mem_cons_self m l)) (by rw [h, h2])
    | ok st' =>
      rw [h] at habs
      exact ih st' (fun m' hm' => hk m' (List.mem_cons_of_mem m hm')) habs

theorem classifyModules_unknown_not_ok :
    ∀ (modules : List WModule) (st : PassState),
    (∃ m ∈ modules, isKnownModule m = false) →
    ∀ r, modules.foldlM classifyModule st ≠ .ok r := by
  intro modules
  induction modules with
  | nil =>
    intro st he r _
    rcases he with ⟨m, hm, _⟩
    exact absurd hm (List.not_mem_nil m)
  | cons m l ih =>
    intro st he r habs
    rw [List.foldlM_cons] at habs
    cases h : classifyModule st m with
    | error e =>
      rw [h] at habs
      exact Except.noConfusion
        (show (Except.error e : Except ClassifyError PassState) = .ok r from habs)
    | ok st' =>
      rw [h] at habs
      rcases he with ⟨m', hm', hk'⟩
      rcases List.mem_cons.mp hm' with rfl | hmem
      · have hmo : m' = .other := by
          cases m' <;> simp_all [isKnownModule]
        rw [hmo] at h
        exact Except.noConfusion
          (show (Except.error ClassifyError.unexpectedModuleType :
            Except ClassifyError PassState) = .ok st' from h)
      · exact ih st' ⟨m', hmem, hk'⟩ r habs

/-- C7: the classification loop never silently skips a module of an
unknown kind — a module list containing a module outside the five
recognised kinds never classifies successfully — and for a module list
consisting only of the five recognised kinds the
`Unexpected module type` error branch is unreachable. -/
theorem classify_rejects_unknown_modules (manifestPath : Option String) (n : Nat)
    (modules : List WModule) :
    ((∀ m ∈ modules, isKnownModule m = true) →
      classifyModules manifestPath n modules ≠ .error .unexpectedModuleType) ∧
    ((∃ m ∈ modules, isKnownModule m = false) →
      ∀ r, classifyModules manifestPath n modules ≠ .ok r) :=
  ⟨fun hk => classifyModules_known_no_unexpected modules _ hk,
   fun he r => classifyModules_unknown_not_ok modules _ he r⟩

theorem classify_rejects_unknown_modules_witness :
    (classifyModules none 0 [WModule.external] ≠ .error .unexpectedModuleType) ∧
    (classifyModules none 0 [WModule.other] ≠ .ok ⟨[], [], 0, 0⟩) :=
  ⟨(classify_rejects_unknown_modules none 0 [WModule.external]).1 (by decide),
   (classify_rejects_unknown_modules none 0 [WModule.other]).2
     ⟨WModule.other, by decide, rfl⟩ ⟨[], [], 0, 0⟩⟩

theorem classifyModule_workUnits (st : PassState) (m : WModule) (st' : PassState)
    (h : classifyModule st m = .ok st') :
    st'.workUnits = st.workUnits +
      (if isInTreeScss m then EXTRA_SCSS_WORK_UNITS else 0) := by
  cases m with
  | normal path deps =>
    by_cases hnm : "node_modules" ∈ (parseFilePath path).dirs
    · cases hseg : (parseFilePath path).dirs[lastIdxOf "node_modules"
        (parseFilePath path).dirs + 1]? with
      | none => simp [classifyModule, hnm, hseg] at h
      | some seg =>
        simp [classifyModule, hnm, hseg] at h
        rw [← h]
        simp [isInTreeScss, hnm]
    · by_cases hscss : strEndsWith path ".scss" = true
      · simp [classifyModule, hnm, hscss] at h
        rw [← h]
        simp [isInTreeScss, hnm, hscss]
      · simp [classifyModule, hnm, hscss] at h
        rw [← h]
        simp [isInTreeScss, hnm, hscss]
  | bundleRef eid =>
    simp [classifyModule] at h
    rw [← h]
    simp [isInTreeScss]
  | concatenated k =>
    simp [classifyModule] at h
    rw [← h]
    simp [isInTreeScss]
  | external =>
    simp [classifyModule] at h
    rw [← h]
    simp [isInTreeScss]
  | ignored =>
    simp [classifyModule] at h
    rw [← h]
    simp [isInTreeScss]
  | other => simp [classifyModule] at h

theorem classifyModules_workUnits_fold :
    ∀ (modules : List WModule) (st r : PassState),
    modules.foldlM classifyModule st = .ok r →
    r.workUnits = st.workUnits +
      EXTRA_SCSS_WORK_UNITS * (modules.countP isInTreeScss) := by
  intro modules
  induction modules with
  | nil =>
    intro st r h
    have h2 : st = r :=
      Except.ok.inj (show (Except.ok st : Except ClassifyError PassState) = .ok r from h)
    subst h2
    simp
  | cons m l ih =>
    intro st r h
    rw [List.foldlM_cons] at h
    cases hm : classifyModule st m with
    | error e =>
      rw [hm] at h
      exact absurd
        (show (Except.error e : Except ClassifyError PassState) = .ok r from h)
        (fun hcon => Except.noConfusion hcon)
    | ok st' =>
      rw [hm] at h
      have hw := classifyModule_workUnits st m st' hm
      have hrest := ih st' r h
      rw [hrest, hw, List.countP_cons]
      cases hscss : isInTreeScss m with
      | false => simp [hscss]
      | true => simp [hscss]; ring

/-- C8: on every successful classification pass the resulting
`workUnits` equals the raw file-dependency count reported by the bundler
plus the stylesheet extra-weight constant — which equals 100 —
multiplied by the number of (in-tree) stylesheet modules in the pass. -/
theorem workUnits_accounting (manifestPath : Option String) (n : Nat)
    (modules : List WModule) (r : PassState)
    (h : classifyModules manifestPath n modules = .ok r) :
    r.workUnits = n + EXTRA_SCSS_WORK_UNITS * modules.countP isInTreeScss ∧
    EXTRA_SCSS_WORK_UNITS = 100 :=
  ⟨by simpa using classifyModules_workUnits_fold modules _ r h, rfl⟩

theorem workUnits_accounting_witness :
    (107 : Nat) = 7 + EXTRA_SCSS_WORK_UNITS *
      ([WModule.normal "/repo/a.scss" [], WModule.external].countP isInTreeScss) ∧
    EXTRA_SCSS_WORK_UNITS = 100 :=
  workUnits_accounting none 7 [WModule.normal "/repo/a.scss" [], WModule.external]
    ⟨[], ["/repo/a.scss"], 1, 107⟩ (by rfl)

theorem promiseCatchIgnore_eq (r : Except String Unit) :
    promiseCatchIgnore r = .ok () := by
  cases r <;> rfl

/-- C9: cache-record persistence after a successful pass is
fire-and-forget: the emitted `Success(moduleCount)` compile event is
identical whatever the outcomes of the hash computation and the cache
write, and the settled background persistence task is always `ok` — a
failed write is caught and discarded, never surfaced into the compile
event stream. -/
theorem persistence_fire_and_forget (b : Bundle) (k : String) (n : Nat)
    (modules : List WModule)
    (g₁ g₂ : Except String (String → Option String))
    (w₁ w₂ : CacheRecord → Except String Unit) :
    (observeTerminalSuccess b k n modules g₁ w₁).map Prod.fst =
      (observeTerminalSuccess b k n modules g₂ w₂).map Prod.fst ∧
    (∀ r, classifyModules b.manifestPath n modules = .ok r →
      observeTerminalSuccess b k n modules g₁ w₁ =
        .ok (.compilerSuccess b.id r.moduleCount, .ok ())) := by
  constructor
  · cases h : classifyModules b.manifestPath n modules with
    | error e => simp [observeTerminalSuccess, h, Except.map]
    | ok r => simp [observeTerminalSuccess, h, Except.map]
  · intro r h
    simp [observeTerminalSuccess, h, promiseCatchIgnore_eq]

theorem persistence_fire_and_forget_witness :
    ((observeTerminalSuccess ⟨.plugin, "w9", [], "/c", "/s", "/o", none, none⟩
        "ock" 3 [WModule.external] (.error "hash failure")
        (fun _ => .error "write failure")).map Prod.fst =
      (observeTerminalSuccess ⟨.plugin, "w9", [], "/c", "/s", "/o", none, none⟩
        "ock" 3 [WModule.external] (.ok fun _ => none)
        (fun _ => .ok ())).map Prod.fst) ∧
    (observeTerminalSuccess ⟨.plugin, "w9", [], "/c", "/s", "/o", none, none⟩
        "ock" 3 [WModule.external] (.error "hash failure")
        (fun _ => .error "write failure") =
      .ok (.compilerSuccess "w9" 0, .ok ())) :=
  ⟨(persistence_fire_and_forget ⟨.plugin, "w9", [], "/c", "/s", "/o", none, none⟩
      "ock" 3 [WModule.external] (.error "hash failure") (.ok fun _ => none)
      (fun _ => .error "write failure") (fun _ => .ok ())).1,
   (persistence_fire_and_forget ⟨.plugin, "w9", [], "/c", "/s", "/o", none, none⟩
      "ock" 3 [WModule.external] (.error "hash failure") (.ok fun _ => none)
      (fun _ => .error "write failure") (fun _ => .ok ())).2
      ⟨[], [], 0, 3⟩ (by rfl)⟩

/-- C1: for every bundle and current `optimizerCacheKey` the cache
decision engine produces exactly one decision (it is a total function),
chosen by the fixed priority order: cache disabled, then missing
optimizer cache key, then optimizer cache key mismatch, then bundle
references outdated, then missing cache key, then cache key mismatch,
then cached; in particular, a stored record that mismatches in both the
optimizer-key and the cache-key dimensions reports only the
optimizer-key reason. -/
theorem bundleCacheDecision_priority (en : Bool) (cur : String) (rec : CacheRecord)
    (fresh : List String) (b : Bundle) (files : List String)
    (hashes : String → Option String) :
    (en = false →
      getBundleCacheDecision en cur rec fresh b files hashes =
        .notCached "cache disabled") ∧
    (en = true → rec.optimizerCacheKey = none →
      getBundleCacheDecision en cur rec fresh b files hashes =
        .notCached "missing optimizer cache key") ∧
    (∀ k, en = true → rec.optimizerCacheKey = some k → k ≠ cur →
      getBundleCacheDecision en cur rec fresh b files hashes =
        .notCached "optimizer cache key mismatch") ∧
    (en = true → rec.optimizerCacheKey = some cur →
      listSetEq rec.bundleRefExportIds fresh = false →
      getBundleCacheDecision en cur rec fresh b files hashes =
        .notCached "bundle references outdated") ∧
    (en = true → rec.optimizerCacheKey = some cur →
      listSetEq rec.bundleRefExportIds fresh = true →
      rec.cacheKey = none →
      getBundleCacheDecision en cur rec fresh b files hashes =
        .notCached "missing cache key") ∧
    (∀ ck, en = true → rec.optimizerCacheKey = some cur →
      listSetEq rec.bundleRefExportIds fresh = true →
      rec.cacheKey = some ck → ck ≠ b.createCacheKey files hashes →
      getBundleCacheDecision en cur rec fresh b files hashes =
        .notCached "cache key mismatch") ∧
    (en = true → rec.optimizerCacheKey = some cur →
      listSetEq rec.bundleRefExportIds fresh = true →
      rec.cacheKey = some (b.createCacheKey files hashes) →
      getBundleCacheDecision en cur rec fresh b files hashes = .cached) ∧
    (∀ k ck, en = true → rec.optimizerCacheKey = some k → k ≠ cur →
      rec.cacheKey = some ck → ck ≠ b.createCacheKey files hashes →
      getBundleCacheDecision en cur rec fresh b files hashes =
        .notCached "optimizer cache key mismatch") := by
  refine ⟨?_, ?_, ?_, ?_, ?_, ?_, ?_, ?_⟩
  · intro hk
    simp [getBundleCacheDecision, hk]
  · intro hk hopt
    simp [getBundleCacheDecision, hk, hopt]
  · intro k hk hopt hne
    simp [getBundleCacheDecision, hk, hopt, hne]
  · intro hk hopt hrefs
    simp [getBundleCacheDecision, hk, hopt, hrefs]
  · intro hk hopt hrefs hck
    simp [getBundleCacheDecision, hk, hopt, hrefs, hck]
  · intro ck hk hopt hrefs hck hne
    simp [getBundleCacheDecision, hk, hopt, hrefs, hck, hne]
  · intro hk hopt hrefs hck
    simp [getBundleCacheDecision, hk, hopt, hrefs, hck]
  · intro k ck hk hopt hne hck hckne
    simp [getBundleCacheDecision, hk, hopt, hne]

theorem bundleCacheDecision_priority_witness :
    getBundleCacheDecision true "new"
      ⟨[], some "old",
        some ⟨Bundle.toSpec ⟨.plugin, "w1", [], "/c", "/s", "/o", none, none⟩,
          [("/x", none)]⟩, 0, 0, []⟩
      [] ⟨.plugin, "w1", [], "/c", "/s", "/o", none, none⟩ [] (fun _ => none) =
      .notCached "optimizer cache key mismatch" :=
  (bundleCacheDecision_priority true "new"
      ⟨[], some "old",
        some ⟨Bundle.toSpec ⟨.plugin, "w1", [], "/c", "/s", "/o", none, none⟩,
          [("/x", none)]⟩, 0, 0, []⟩
      [] ⟨.plugin, "w1", [], "/c", "/s", "/o", none, none⟩ []
      (fun _ => none)).2.2.2.2.2.2.2 "old"
    ⟨Bundle.toSpec ⟨.plugin, "w1", [], "/c", "/s", "/o", none, none⟩, [("/x", none)]⟩
    rfl rfl (by decide) rfl (by decide)
